import Mathlib
/-!
Verification development for the MicroPyDash plotting core.

The Python sources are shallowly embedded over exact rationals:

* `src/axis_scaler.py` : class `AxisScaler` (the spec calls it TickScaler).
  Floating point numbers become `Rat`; `math.floor (math.log (x, 10))`
  becomes `Int.log 10 x`, which is the exact floor of the base-10
  logarithm for positive rationals; `math.log` raising `ValueError`
  (math domain error) on a non-positive argument becomes the `Except`
  error channel.
* `src/plot_trace.py` : classes `PlotTrace` and `PlotBuffer`
  (the spec calls the buffer SampleBuffer).
* `src/plot_buffer.py` : its own, nearly textually identical, class
  `PlotBuffer`, embedded in namespace `PBuf` for comparison.
* `src/upd_plot.py` : the data/autoscale state of class `Plot`
  (`set_data`, `autoscale_x`, `autoscale_y`, `find_extremes`).
-/

deriving instance DecidableEq for Except

/-- The one error the scaler code can actually raise: `math.log` of a
non-positive number raises `ValueError` (math domain error) in Python.
The repository defines no error classes of its own. -/
inductive PyErr where
  | mathDomainError
  deriving DecidableEq, Repr

/-- Fuel-driven base-10 floor logarithm on naturals, written with
structural recursion so that the kernel can evaluate it.
`natLog10Aux_eq` shows it agrees with `Nat.log 10` when given enough
fuel. -/
def natLog10Aux : ℕ → ℕ → ℕ
  | 0, _ => 0
  | fuel + 1, n => if 10 ≤ n then natLog10Aux fuel (n / 10) + 1 else 0

/-- Base-10 floor logarithm on naturals; equal to `Nat.log 10`. -/
def natLog10 (n : ℕ) : ℕ :=
  natLog10Aux n n

/-- Fuel-driven base-10 ceiling logarithm on naturals, structural twin
of `Nat.clog 10`. -/
def natClog10Aux : ℕ → ℕ → ℕ
  | 0, _ => 0
  | fuel + 1, n => if 2 ≤ n then natClog10Aux fuel ((n + 9) / 10) + 1 else 0

/-- Base-10 ceiling logarithm on naturals; equal to `Nat.clog 10`. -/
def natClog10 (n : ℕ) : ℕ :=
  natClog10Aux n n

/-- `math.floor (math.log (x, 10))` over exact rationals: the floor of
the base-10 logarithm, written to be kernel-computable.
`intLog10_eq` shows it is `Int.log 10`. -/
def intLog10 (x : ℚ) : ℤ :=
  if 1 ≤ x then (natLog10 ⌊x⌋₊ : ℤ) else -(natClog10 ⌈x⁻¹⌉₊ : ℤ)

/-- Value part of `AxisScaler.niceNum` from `src/axis_scaler.py`
(lines 53-83), for a positive argument.
`exponent = floor (log10 vrange)`; `fraction = vrange / 10 ** exponent`;
then the branch ladder on `fraction`, finally
`niceFraction * (10 ** exponent)`. -/
def niceNumVal (vrange : ℚ) (do_round : Bool) : ℚ :=
  let exponent : ℤ := intLog10 vrange
  let fraction : ℚ := vrange / (10 : ℚ) ^ exponent
  let niceFraction : ℚ :=
    if do_round then
      if fraction < 3/2 then 1
      else if fraction < 3 then 2
      else if fraction < 7 then 5
      else 10
    else
      if fraction ≤ 1 then 1
      else if fraction ≤ 2 then 2
      else if fraction ≤ 5 then 5
      else 10
  niceFraction * (10 : ℚ) ^ exponent

/-- `AxisScaler.niceNum`: `math.log (vrange, 10)` raises the math
domain error when `vrange <= 0`; otherwise the computation is total. -/
def niceNum (vrange : ℚ) (do_round : Bool) : Except PyErr ℚ :=
  if vrange ≤ 0 then .error .mathDomainError
  else .ok (niceNumVal vrange do_round)

/-- State of an `AxisScaler` object after a successful `calculate`:
the three parameters and the four derived attributes. -/
structure AxisScaler where
  min_point : ℚ
  max_point : ℚ
  max_n_ticks : ℤ
  vrange : ℚ
  tickSpacing : ℚ
  niceMin : ℚ
  niceMax : ℚ
  deriving DecidableEq, Repr

/-- `AxisScaler.calculate` (lines 40-50): recompute `vrange`,
`tickSpacing`, `niceMin`, `niceMax` from the three parameters. -/
def calculate (min_point max_point : ℚ) (max_n_ticks : ℤ) :
    Except PyErr AxisScaler := do
  let vrange ← niceNum (max_point - min_point) false
  let tickSpacing ← niceNum (vrange / ((max_n_ticks : ℚ) - 1)) true
  return { min_point := min_point, max_point := max_point,
           max_n_ticks := max_n_ticks, vrange := vrange,
           tickSpacing := tickSpacing,
           niceMin := ⌊min_point / tickSpacing⌋ * tickSpacing,
           niceMax := ⌈max_point / tickSpacing⌉ * tickSpacing }

/-- `AxisScaler.__init__` (lines 27-37): store the parameters and run
`calculate`. -/
def scalerInit (min_value max_value : ℚ) (max_ticks : ℤ) :
    Except PyErr AxisScaler :=
  calculate min_value max_value max_ticks

/-- The while loop of `generate_ticks` (lines 101-104):
`tick_pos = niceMin; while tick_pos <= niceMax: yield; tick_pos += step`.
The loop is embedded with a fuel argument; `generateTicksList` passes
enough fuel for the loop to reach its exit condition, and
`tickLoop_length` below shows that amount is never exhausted. -/
def tickLoop (step niceMax : ℚ) : ℕ → ℚ → List ℚ
  | 0, _ => []
  | fuel + 1, tick_pos =>
      if tick_pos ≤ niceMax then
        tick_pos :: tickLoop step niceMax fuel (tick_pos + step)
      else []

/-- The tick positions yielded by `AxisScaler.generate_ticks`
(lines 86-104) from a freshly calculated state. -/
def generateTicksList (s : AxisScaler) : List ℚ :=
  tickLoop s.tickSpacing s.niceMax
    (⌈(s.niceMax - s.niceMin) / s.tickSpacing⌉.toNat + 1) s.niceMin

/-- `AxisScaler.generate_ticks` with fresh bounds and tick count: set
the parameters, recompute, then run the yield loop. -/
def generateTicks (min_point max_point : ℚ) (max_ticks : ℤ) :
    Except PyErr (List ℚ) := do
  let s ← calculate min_point max_point max_ticks
  return generateTicksList s

/-- Circular buffer class `PlotBuffer` from `src/plot_trace.py`
(lines 94-197), holding exact rationals in place of floats. `data` is
`none` when Python holds `None`; `size` mirrors the constructor
argument, which may itself be `None`. -/
structure PlotBuffer where
  data : Option (List ℚ)
  size : Option ℤ
  index_put : ℤ
  index_get : ℤ
  count : ℤ
  max_val : Option ℚ
  min_val : Option ℚ
  deriving DecidableEq, Repr

namespace PlotBuffer

/-- `PlotBuffer.__init__` (lines 100-117): a data array of zeros is
created only for a nonzero positive size. -/
def init (size : Option ℤ) : PlotBuffer :=
  { data :=
      match size with
      | some s => if 0 < s then some (List.replicate s.toNat 0) else none
      | none => none,
    size := size, index_put := 0, index_get := 0, count := 0,
    max_val := none, min_val := none }

/-- `PlotBuffer.put` (lines 120-145): update the running extrema, then
store unless there is no (or an empty) data array, overwriting the
oldest element once full. States where `data` exists but `size` is
`None` cannot arise from `init`; they fall through unchanged. -/
def put (b : PlotBuffer) (value : ℚ) : PlotBuffer :=
  let max_val :=
    match b.max_val with
    | none => some value
    | some m => if value > m then some value else some m
  let min_val :=
    match b.min_val with
    | none => some value
    | some m => if value < m then some value else some m
  let b' := { b with max_val := max_val, min_val := min_val }
  match b'.data, b'.size with
  | some d, some s =>
      if d.isEmpty then b'
      else
        let d' := d.set b'.index_put.toNat value
        let new_put := (b'.index_put + 1) % s
        if b'.count ≥ s then
          { b' with data := some d', index_put := new_put,
                    index_get := (b'.index_get + 1) % s }
        else
          { b' with data := some d', index_put := new_put,
                    count := b'.count + 1 }
  | _, _ => b'

/-- `PlotBuffer.get` (lines 148-159): the value read (or `none` when
empty) paired with the updated buffer. -/
def get (b : PlotBuffer) : Option ℚ × PlotBuffer :=
  match b.data, b.size with
  | some d, some s =>
      if d.isEmpty ∨ b.count ≤ 0 then (none, b)
      else (some (d.getD b.index_get.toNat 0),
            { b with count := b.count - 1,
                     index_get := (b.index_get + 1) % s })
  | _, _ => (none, b)

/-- Loop body of `PlotBuffer.__iter__` (lines 169-173): read `count`
elements starting at a local copy of `index_get`, wrapping modulo
`size`. -/
def iterGo (d : List ℚ) (s : ℤ) : ℕ → ℤ → List ℚ
  | 0, _ => []
  | n + 1, idx => d.getD idx.toNat 0 :: iterGo d s n ((idx + 1) % s)

/-- `PlotBuffer.__iter__` (lines 162-173): the generator only reads a
local index copy, so the buffer itself is untouched. -/
def iterate (b : PlotBuffer) : List ℚ :=
  match b.data, b.size with
  | some d, some s => if d.isEmpty then [] else iterGo d s b.count.toNat b.index_get
  | _, _ => []

/-- `PlotBuffer.max_value` property (lines 176-181). -/
def max_value (b : PlotBuffer) : Option ℚ :=
  b.max_val

/-- `PlotBuffer.min_value` property (lines 184-189). -/
def min_value (b : PlotBuffer) : Option ℚ :=
  b.min_val

/-- `PlotBuffer.__len__` (lines 192-197). -/
def len (b : PlotBuffer) : ℤ :=
  b.count

end PlotBuffer

/-- Insert a list of values into a buffer, one `put` at a time, in
order. -/
def putList (b : PlotBuffer) (vs : List ℚ) : PlotBuffer :=
  vs.foldl PlotBuffer.put b

/-- Python `min` over a nonempty sequence: the left fold of binary
`min`; `none` models the exception on an empty sequence. -/
def pyMin : List ℚ → Option ℚ
  | [] => Option.none
  | x :: xs => some (xs.foldl min x)

/-- Python `max` over a nonempty sequence. -/
def pyMax : List ℚ → Option ℚ
  | [] => Option.none
  | x :: xs => some (xs.foldl max x)

/-- A data source held by a plot axis or trace: Python `None`, a
`PlotBuffer`, or a static sequence. -/
inductive DataSource where
  | none
  | buf (b : PlotBuffer)
  | staticSeq (l : List ℚ)
  deriving DecidableEq, Repr

/-- Python truthiness of a data source: `None` is falsy; a
`PlotBuffer` defines `__len__`, so it is truthy when the live count is
nonzero; a sequence is truthy when nonempty. -/
def DataSource.truthy : DataSource → Bool
  | .none => false
  | .buf b => b.count != 0
  | .staticSeq l => !l.isEmpty

/-- `len(source)`: `None` has no length (Python raises TypeError,
modeled as `none`). -/
def DataSource.pyLen : DataSource → Option ℤ
  | .none => Option.none
  | .buf b => some b.count
  | .staticSeq l => some (l.length : ℤ)

/-- The class attribute `PlotTrace.TRACE_COLORS`
(`src/plot_trace.py` line 23). -/
def TRACE_COLORS : List String :=
  ["yellow", "cyan", "red", "green", "#7070FF"]

/-- `PlotTrace` style and data state (`src/plot_trace.py`
lines 17-89). -/
structure PlotTrace where
  color : String
  lines : Bool
  markers : Bool
  line_width : ℤ
  marker_size : ℤ
  the_data : DataSource
  deriving DecidableEq, Repr

/-- `PlotTrace.__init__` (lines 28-49), with the class-level counter
`serial_number` passed as explicit state and returned incremented.
The body assigns `TRACE_COLORS [serial_number % len (TRACE_COLORS)]`
unconditionally: the `color` argument is never read. -/
def initTrace (serial_number : ℕ) (data : DataSource)
    (color : Option String) (lines markers : Bool)
    (line_width marker_size : ℤ) : PlotTrace × ℕ :=
  ({ color := TRACE_COLORS.getD (serial_number % TRACE_COLORS.length) "",
     lines := lines, markers := markers, line_width := line_width,
     marker_size := marker_size, the_data := data },
   serial_number + 1)

/-- The data and axis-range state of class `Plot` from
`src/upd_plot.py`; the pixel-geometry and SVG-emission fields play no
part in any claim and are not modeled. -/
structure Plot where
  min_x : ℚ
  max_x : ℚ
  min_y : ℚ
  max_y : ℚ
  xdata : DataSource
  traces : List PlotTrace
  deriving DecidableEq, Repr

namespace Plot

/-- `Plot.find_extremes` (lines 284-304). In the `all_new` branch the
code takes `min` and `max` of the whole backing array `one_axis.data`,
never of only the live window. A truthy buffer whose `data` is `None`
cannot arise from `init`; it falls through to `none`. -/
def find_extremes (one_axis : DataSource) (all_new : Bool) :
    Option (ℚ × ℚ) :=
  if one_axis.truthy then
    match one_axis with
    | .buf b =>
        if all_new then
          match b.data with
          | some d =>
              match pyMin d, pyMax d with
              | some mn, some mx => some (mn, mx)
              | _, _ => Option.none
          | Option.none => Option.none
        else
          match b.max_val, b.min_val with
          | some mx, some mn => some (mn, mx)
          | _, _ => Option.none
    | .staticSeq l =>
        match pyMin l, pyMax l with
        | some mn, some mx => some (mn, mx)
        | _, _ => Option.none
    | .none => Option.none
  else Option.none

/-- The zip-assignment loop of `Plot.set_data` (lines 146-147):
surplus traces keep their old data, surplus sources are dropped. -/
def setTraceData : List PlotTrace → List DataSource → List PlotTrace
  | ts, [] => ts
  | [], _ => []
  | t :: ts, s :: ss => { t with the_data := s } :: setTraceData ts ss

/-- `Plot.set_data` (lines 132-147): no validation of any kind is
performed. -/
def set_data (p : Plot) (xdata_source : DataSource)
    (ydata_sources : List DataSource) : Plot :=
  { p with xdata := xdata_source,
           traces := setTraceData p.traces ydata_sources }

/-- `Plot.autoscale_x` (lines 250-261): guarded by truthiness of
`xdata` and `len (xdata) > 1`; uses all-new extremes of the X data. -/
def autoscale_x (p : Plot) : Plot :=
  if p.xdata.truthy then
    match p.xdata.pyLen with
    | some L =>
        if 1 < L then
          match find_extremes p.xdata true with
          | some (mn, mx) => { p with min_x := mn, max_x := mx }
          | Option.none => p
        else p
    | Option.none => p
  else p

/-- The accumulation loop of `Plot.autoscale_y` (lines 269-278): fold
the per-trace extremes with the code's strict comparisons, skipping
traces whose extremes are unavailable. -/
def yExtremesLoop : List PlotTrace → Option ℚ → Option ℚ →
    Option ℚ × Option ℚ
  | [], min_val, max_val => (min_val, max_val)
  | t :: ts, min_val, max_val =>
      match find_extremes t.the_data false with
      | some (temp_min, temp_max) =>
          let min_val' :=
            match min_val with
            | Option.none => some temp_min
            | some m => if temp_min < m then some temp_min else some m
          let max_val' :=
            match max_val with
            | Option.none => some temp_max
            | some m => if temp_max > m then some temp_max else some m
          yExtremesLoop ts min_val' max_val'
      | Option.none => yExtremesLoop ts min_val max_val

/-- `Plot.autoscale_y` (lines 263-281): `self.traces` is evaluated
first, so an empty trace list short-circuits; otherwise
`len (self.xdata)` raises a TypeError when `xdata` is `None`, modeled
as result `none`. -/
def autoscale_y (p : Plot) : Option Plot :=
  if p.traces.isEmpty then some p
  else
    match p.xdata.pyLen with
    | Option.none => Option.none
    | some L =>
        if 1 < L then
          match yExtremesLoop p.traces Option.none Option.none with
          | (some mn, some mx) => some { p with min_y := mn, max_y := mx }
          | _ => some p
        else some p

end Plot

namespace PBuf

/-- Circular buffer class `PlotBuffer` from `src/plot_buffer.py`
(lines 13-116) — the second, separate copy of the class shipped by the
repository, embedded independently for comparison with the
`plot_trace.py` copy. -/
structure PlotBuffer where
  data : Option (List ℚ)
  size : Option ℤ
  index_put : ℤ
  index_get : ℤ
  count : ℤ
  max_val : Option ℚ
  min_val : Option ℚ
  deriving DecidableEq, Repr

/-- `PlotBuffer.__init__` from `src/plot_buffer.py` (lines 19-36). -/
def init (size : Option ℤ) : PlotBuffer :=
  { data :=
      match size with
      | some s => if 0 < s then some (List.replicate s.toNat 0) else none
      | none => none,
    size := size, index_put := 0, index_get := 0, count := 0,
    max_val := none, min_val := none }

/-- `PlotBuffer.put` from `src/plot_buffer.py` (lines 39-64). -/
def put (b : PlotBuffer) (value : ℚ) : PlotBuffer :=
  let max_val :=
    match b.max_val with
    | none => some value
    | some m => if value > m then some value else some m
  let min_val :=
    match b.min_val with
    | none => some value
    | some m => if value < m then some value else some m
  let b' := { b with max_val := max_val, min_val := min_val }
  match b'.data, b'.size with
  | some d, some s =>
      if d.isEmpty then b'
      else
        let d' := d.set b'.index_put.toNat value
        let new_put := (b'.index_put + 1) % s
        if b'.count ≥ s then
          { b' with data := some d', index_put := new_put,
                    index_get := (b'.index_get + 1) % s }
        else
          { b' with data := some d', index_put := new_put,
                    count := b'.count + 1 }
  | _, _ => b'

/-- `PlotBuffer.get` from `src/plot_buffer.py` (lines 67-78). -/
def get (b : PlotBuffer) : Option ℚ × PlotBuffer :=
  match b.data, b.size with
  | some d, some s =>
      if d.isEmpty ∨ b.count ≤ 0 then (none, b)
      else (some (d.getD b.index_get.toNat 0),
            { b with count := b.count - 1,
                     index_get := (b.index_get + 1) % s })
  | _, _ => (none, b)

/-- Loop body of `PlotBuffer.generate_points` from `src/plot_buffer.py`
(lines 88-92). -/
def genGo (d : List ℚ) (s : ℤ) : ℕ → ℤ → List ℚ
  | 0, _ => []
  | n + 1, idx => d.getD idx.toNat 0 :: genGo d s n ((idx + 1) % s)

/-- `PlotBuffer.generate_points` from `src/plot_buffer.py`
(lines 81-92). -/
def generate_points (b : PlotBuffer) : List ℚ :=
  match b.data, b.size with
  | some d, some s => if d.isEmpty then [] else genGo d s b.count.toNat b.index_get
  | _, _ => []

end PBuf

/-- Field-for-field view of a `plot_trace.py` buffer as a
`plot_buffer.py` buffer; the two structures carry identical fields. -/
def toPBuf (b : PlotBuffer) : PBuf.PlotBuffer :=
  { data := b.data, size := b.size, index_put := b.index_put,
    index_get := b.index_get, count := b.count,
    max_val := b.max_val, min_val := b.min_val }

/-- One buffer operation: an insertion or a destructive read. -/
inductive BufOp where
  | put (v : ℚ)
  | get
  deriving DecidableEq, Repr

/-- Run a list of operations on a `plot_trace.py` buffer, collecting
the outputs of the get operations in order. -/
def runOps (b : PlotBuffer) : List BufOp → PlotBuffer × List (Option ℚ)
  | [] => (b, [])
  | .put v :: ops => runOps (b.put v) ops
  | .get :: ops =>
      let r := b.get
      let rest := runOps r.2 ops
      (rest.1, r.1 :: rest.2)

namespace PBuf

/-- Run a list of operations on a `plot_buffer.py` buffer, collecting
the outputs of the get operations in order. -/
def runOps (b : PlotBuffer) : List BufOp → PlotBuffer × List (Option ℚ)
  | [] => (b, [])
  | .put v :: ops => runOps (put b v) ops
  | .get :: ops =>
      let r := get b
      let rest := runOps r.2 ops
      (rest.1, r.1 :: rest.2)

end PBuf

theorem natLog10Aux_eq (fuel : ℕ) :
    ∀ n : ℕ, n ≤ fuel → natLog10Aux fuel n = Nat.log 10 n := by
  induction fuel with
  | zero =>
      intro n hn
      interval_cases n
      simp [natLog10Aux]
  | succ fuel ih =>
      intro n hn
      by_cases h10 : 10 ≤ n
      · have hdiv : n / 10 ≤ fuel := by
          have : n / 10 < n := Nat.div_lt_self (by omega) (by omega)
          omega
        rw [natLog10Aux, if_pos h10, ih _ hdiv]
        conv_rhs => rw [Nat.log]
        rw [dif_pos ⟨h10, by omega⟩]
      · rw [natLog10Aux, if_neg h10, Nat.log_of_lt (by omega)]

theorem natLog10_eq (n : ℕ) : natLog10 n = Nat.log 10 n :=
  natLog10Aux_eq n n le_rfl

theorem natClog10Aux_eq (fuel : ℕ) :
    ∀ n : ℕ, n ≤ fuel → natClog10Aux fuel n = Nat.clog 10 n := by
  induction fuel with
  | zero =>
      intro n hn
      interval_cases n
      simp [natClog10Aux]
  | succ fuel ih =>
      intro n hn
      by_cases h2 : 2 ≤ n
      · have hdiv : (n + 9) / 10 ≤ fuel := by
          have : (n + 9) / 10 < n := by
            have := Nat.add_pred_div_lt (b := 10) (n := n) (by omega) (by omega)
            simpa using this
          omega
        rw [natClog10Aux, if_pos h2, ih _ hdiv,
            Nat.clog_of_two_le (by omega) h2]
        have h9 : n + 10 - 1 = n + 9 := by omega
        rw [h9]
      · rw [natClog10Aux, if_neg h2, Nat.clog_of_right_le_one (by omega)]

theorem natClog10_eq (n : ℕ) : natClog10 n = Nat.clog 10 n :=
  natClog10Aux_eq n n le_rfl

theorem intLog10_eq (x : ℚ) : intLog10 x = Int.log 10 x := by
  unfold intLog10
  by_cases h1 : 1 ≤ x
  · rw [if_pos h1, Int.log_of_one_le_right _ h1, natLog10_eq]
  · rw [if_neg h1, Int.log_of_right_le_one _ (le_of_not_le h1), natClog10_eq]

/-- Helper: the floor log of a number of the form `c * 10 ^ e` with
`1 ≤ c < 10` is `e`. -/
theorem log10_mul_zpow {c : ℚ} (hc1 : 1 ≤ c) (hc10 : c < 10) (e : ℤ) :
    Int.log 10 (c * (10 : ℚ) ^ e) = e := by
  have hp : (0 : ℚ) < (10 : ℚ) ^ e := zpow_pos (by norm_num) e
  have hcp : (0 : ℚ) < c * (10 : ℚ) ^ e := by nlinarith
  refine le_antisymm ?_ ?_
  · have hlt : c * (10 : ℚ) ^ e < (10 : ℚ) ^ (e + 1) := by
      rw [zpow_add_one₀ (by norm_num : (10 : ℚ) ≠ 0) e]
      nlinarith
    have := (Int.lt_zpow_iff_log_lt (b := 10) (by norm_num) hcp).mp
      (by exact_mod_cast hlt)
    omega
  · have hle : (10 : ℚ) ^ e ≤ c * (10 : ℚ) ^ e := by nlinarith
    exact (Int.zpow_le_iff_le_log (b := 10) (by norm_num) hcp).mp
      (by exact_mod_cast hle)

/-- Helper: bounds on the `fraction` variable of `niceNum`: for a
positive argument it lies in `[1, 10)`. -/
theorem fraction_bounds {x : ℚ} (hx : 0 < x) :
    1 ≤ x / (10 : ℚ) ^ (Int.log 10 x) ∧
      x / (10 : ℚ) ^ (Int.log 10 x) < 10 := by
  have hp : (0 : ℚ) < (10 : ℚ) ^ (Int.log 10 x) :=
    zpow_pos (by norm_num) _
  have h1 : (10 : ℚ) ^ (Int.log 10 x) ≤ x := by
    exact_mod_cast Int.zpow_log_le_self (b := 10) (by norm_num) hx
  have h2 : x < (10 : ℚ) ^ (Int.log 10 x + 1) := by
    exact_mod_cast Int.lt_zpow_succ_log_self (b := 10) (by norm_num) x
  rw [zpow_add_one₀ (by norm_num : (10 : ℚ) ≠ 0)] at h2
  constructor
  · rw [le_div_iff hp]
    linarith
  · rw [div_lt_iff hp]
    linarith

/-- Helper: the floor log of `10 ^ e` itself is `e` (cast-adjusted
version of `Int.log_zpow`). -/
theorem log10_zpow (e : ℤ) : Int.log 10 ((10 : ℚ) ^ e) = e := by
  have h := Int.log_zpow (b := 10) (R := ℚ) (by norm_num) e
  have hc : ((10 : ℕ) : ℚ) = (10 : ℚ) := by norm_num
  rw [hc] at h
  exact h

/-- Characterization of `niceNumVal` with the let bindings expanded and
the embedded logarithm replaced by `Int.log`. -/
theorem niceNumVal_eq (x : ℚ) (b : Bool) :
    niceNumVal x b =
      (if b then
        (if x / (10 : ℚ) ^ (Int.log 10 x) < 3/2 then (1 : ℚ)
         else if x / (10 : ℚ) ^ (Int.log 10 x) < 3 then 2
         else if x / (10 : ℚ) ^ (Int.log 10 x) < 7 then 5
         else 10)
      else
        (if x / (10 : ℚ) ^ (Int.log 10 x) ≤ 1 then 1
         else if x / (10 : ℚ) ^ (Int.log 10 x) ≤ 2 then 2
         else if x / (10 : ℚ) ^ (Int.log 10 x) ≤ 5 then 5
         else 10)) * (10 : ℚ) ^ (Int.log 10 x) := by
  simp only [niceNumVal, intLog10_eq]

/-- The chosen digit of `niceNumVal` is one of 1, 2, 5, 10, and the
result is that digit times `10 ^ exponent`. -/
theorem niceNumVal_digit (x : ℚ) (b : Bool) :
    ∃ c : ℚ, (c = 1 ∨ c = 2 ∨ c = 5 ∨ c = 10) ∧
      niceNumVal x b = c * (10 : ℚ) ^ (Int.log 10 x) := by
  rw [niceNumVal_eq]
  split_ifs <;>
    first
      | exact ⟨1, by norm_num, rfl⟩
      | exact ⟨2, by norm_num, rfl⟩
      | exact ⟨5, by norm_num, rfl⟩
      | exact ⟨10, by norm_num, rfl⟩

/-- Positivity of the nice number. -/
theorem niceNumVal_pos (x : ℚ) (b : Bool) :
    0 < niceNumVal x b := by
  rw [niceNumVal_eq]
  split_ifs <;> positivity

/-- Ceiling mode never under-covers: `x ≤ niceNumVal x false`. -/
theorem le_niceNumVal_false {x : ℚ} (hx : 0 < x) : x ≤ niceNumVal x false := by
  obtain ⟨hf1, hf10⟩ := fraction_bounds hx
  have hp : (0 : ℚ) < (10 : ℚ) ^ (Int.log 10 x) := zpow_pos (by norm_num) _
  have key : x / (10 : ℚ) ^ (Int.log 10 x) * (10 : ℚ) ^ (Int.log 10 x) = x :=
    div_mul_cancel₀ x (ne_of_gt hp)
  rw [niceNumVal_eq]
  simp only [Bool.false_eq_true, if_false]
  split_ifs with h1 h2 h3 <;> nlinarith [key, hp]

/-- Rounding mode is approximate: `2 * x < 3 * result` and
`3 * result ≤ 5 * x`, i.e. the result is within a factor of
`(2/3, 5/3]` of the argument. -/
theorem niceNumVal_true_bounds {x : ℚ} (hx : 0 < x) :
    2 * x < 3 * niceNumVal x true ∧ 3 * niceNumVal x true ≤ 5 * x := by
  obtain ⟨hf1, hf10⟩ := fraction_bounds hx
  have hp : (0 : ℚ) < (10 : ℚ) ^ (Int.log 10 x) := zpow_pos (by norm_num) _
  have key : x / (10 : ℚ) ^ (Int.log 10 x) * (10 : ℚ) ^ (Int.log 10 x) = x :=
    div_mul_cancel₀ x (ne_of_gt hp)
  rw [niceNumVal_eq]
  simp only [if_true]
  split_ifs with h1 h2 h3 <;>
    exact ⟨by nlinarith [key, hp], by nlinarith [key, hp]⟩

/-- The normalized digit of the nice number, measured the way the spec
measures it (`result / 10 ^ floor (log10 result)`), is 1, 2, 5 or 10. -/
theorem niceNumVal_normalized (x : ℚ) (b : Bool) (hx : 0 < x) :
    niceNumVal x b / (10 : ℚ) ^ (Int.log 10 (niceNumVal x b)) = 1 ∨
    niceNumVal x b / (10 : ℚ) ^ (Int.log 10 (niceNumVal x b)) = 2 ∨
    niceNumVal x b / (10 : ℚ) ^ (Int.log 10 (niceNumVal x b)) = 5 ∨
    niceNumVal x b / (10 : ℚ) ^ (Int.log 10 (niceNumVal x b)) = 10 := by
  obtain ⟨c, hc, hval⟩ := niceNumVal_digit x b
  have hp : (0 : ℚ) < (10 : ℚ) ^ (Int.log 10 x) := zpow_pos (by norm_num) _
  rcases hc with h | h | h | h
  · left
    rw [hval, h, one_mul, log10_zpow, div_self (ne_of_gt hp)]
  · right; left
    rw [hval, h, log10_mul_zpow (by norm_num) (by norm_num),
      mul_div_assoc, div_self (ne_of_gt hp), mul_one]
  · right; right; left
    rw [hval, h, log10_mul_zpow (by norm_num) (by norm_num),
      mul_div_assoc, div_self (ne_of_gt hp), mul_one]
  · left
    have h10 : (10 : ℚ) * (10 : ℚ) ^ (Int.log 10 x) =
        (10 : ℚ) ^ (Int.log 10 x + 1) := by
      rw [zpow_add_one₀ (by norm_num : (10 : ℚ) ≠ 0)]
      ring
    rw [hval, h, h10, log10_zpow]
    exact div_self (ne_of_gt (zpow_pos (by norm_num) _))

/-- Once the loop position passes `niceMax`, the loop yields nothing,
whatever fuel remains. -/
theorem tickLoop_nil {step niceMax pos : ℚ} (h : ¬ pos ≤ niceMax) :
    ∀ fuel, tickLoop step niceMax fuel pos = []
  | 0 => rfl
  | fuel + 1 => by rw [tickLoop, if_neg h]

/-- When `niceMax - pos` is exactly `k` steps and at least `k + 1` units
of fuel are available, the loop yields exactly `k + 1` ticks. -/
theorem tickLoop_length {step niceMax : ℚ} (hstep : 0 < step) :
    ∀ (k fuel : ℕ) (pos : ℚ), niceMax - pos = k * step → k + 1 ≤ fuel →
      (tickLoop step niceMax fuel pos).length = k + 1 := by
  intro k
  induction k with
  | zero =>
      intro fuel pos hspan hfuel
      match fuel, hfuel with
      | fuel + 1, _ =>
        have h0 : niceMax - pos = 0 := by
          rw [hspan]
          push_cast
          ring
        have hle : pos ≤ niceMax := by linarith
        rw [tickLoop, if_pos hle,
            tickLoop_nil (by push_neg; linarith) fuel]
        rfl
  | succ k ih =>
      intro fuel pos hspan hfuel
      match fuel, hfuel with
      | fuel + 1, hfuel =>
        have hle : pos ≤ niceMax := by
          have : niceMax - pos = (k + 1 : ℕ) * step := hspan
          push_cast at this
          nlinarith
        rw [tickLoop, if_pos hle]
        have hrec : (tickLoop step niceMax fuel (pos + step)).length = k + 1 := by
          apply ih fuel (pos + step) _ (by omega)
          push_cast
          push_cast at hspan
          linarith
        simp [hrec]

/-- Successful `calculate`: for a nonempty range and at least two
requested ticks, `calculate` returns a state whose derived fields are
the nice-number pipeline values. -/
theorem calculate_spec (mn mx : ℚ) (n : ℤ) (h : mn < mx) (hn : 2 ≤ n) :
    ∃ s, calculate mn mx n = .ok s ∧
      s.vrange = niceNumVal (mx - mn) false ∧
      s.tickSpacing = niceNumVal (s.vrange / ((n : ℚ) - 1)) true ∧
      s.niceMin = ⌊mn / s.tickSpacing⌋ * s.tickSpacing ∧
      s.niceMax = ⌈mx / s.tickSpacing⌉ * s.tickSpacing ∧
      s.min_point = mn ∧ s.max_point = mx ∧ s.max_n_ticks = n := by
  have h1 : ¬ (mx - mn ≤ 0) := by linarith
  have hvpos : 0 < niceNumVal (mx - mn) false := niceNumVal_pos _ _
  have hn1 : (0 : ℚ) < (n : ℚ) - 1 := by
    have : (2 : ℚ) ≤ (n : ℚ) := by exact_mod_cast hn
    linarith
  have h2 : ¬ (niceNumVal (mx - mn) false / ((n : ℚ) - 1) ≤ 0) := by
    have := div_pos hvpos hn1
    linarith
  refine ⟨{ min_point := mn, max_point := mx, max_n_ticks := n,
            vrange := niceNumVal (mx - mn) false,
            tickSpacing :=
              niceNumVal (niceNumVal (mx - mn) false / ((n : ℚ) - 1)) true,
            niceMin :=
              ⌊mn / niceNumVal (niceNumVal (mx - mn) false / ((n : ℚ) - 1))
                true⌋ *
              niceNumVal (niceNumVal (mx - mn) false / ((n : ℚ) - 1)) true,
            niceMax :=
              ⌈mx / niceNumVal (niceNumVal (mx - mn) false / ((n : ℚ) - 1))
                true⌉ *
              niceNumVal (niceNumVal (mx - mn) false / ((n : ℚ) - 1)) true },
      ?_, rfl, rfl, rfl, rfl, rfl, rfl, rfl⟩
  simp only [calculate, niceNum, if_neg h1, bind, Except.bind, if_neg h2,
    pure, Except.pure]

/-- Core tick-count bound: for a proper range and at least two
requested ticks, the tick generation succeeds and emits a list whose
length `L` satisfies `2 * L <= 3 * max_n_ticks + 2`. -/
theorem generateTicks_length (mn mx : ℚ) (n : ℤ) (h : mn < mx) (hn : 2 ≤ n) :
    ∃ l : List ℚ, generateTicks mn mx n = .ok l ∧
      2 * (l.length : ℤ) ≤ 3 * n + 2 := by
  obtain ⟨s, hcalc, hv, ht, hmin, hmax, hsmn, hsmx, hsn⟩ :=
    calculate_spec mn mx n h hn
  have hn1 : (0 : ℚ) < (n : ℚ) - 1 := by
    have : (2 : ℚ) ≤ (n : ℚ) := by exact_mod_cast hn
    linarith
  have hvpos : 0 < s.vrange := by
    rw [hv]
    exact niceNumVal_pos _ _
  have hT : 0 < s.tickSpacing := by
    rw [ht]
    exact niceNumVal_pos _ _
  set T := s.tickSpacing with hTdef
  set k : ℤ := ⌈mx / T⌉ - ⌊mn / T⌋ with hkdef
  have hdivle : mn / T ≤ mx / T := by gcongr
  have hk0 : 0 ≤ k := by
    have h1 : (⌊mn / T⌋ : ℤ) ≤ ⌊mx / T⌋ := Int.floor_le_floor hdivle
    have h2 : (⌊mx / T⌋ : ℤ) ≤ ⌈mx / T⌉ := Int.floor_le_ceil _
    omega
  have hspan : s.niceMax - s.niceMin = (k : ℚ) * T := by
    rw [hmin, hmax, hkdef]
    push_cast
    ring
  have hkQ : s.niceMax - s.niceMin = (k.toNat : ℚ) * T := by
    rw [hspan]
    congr 1
    exact_mod_cast (Int.toNat_of_nonneg hk0).symm
  have hlen : (generateTicksList s).length = k.toNat + 1 := by
    unfold generateTicksList
    rw [← hTdef, hspan, mul_div_cancel_right₀ _ (ne_of_gt hT),
      Int.ceil_intCast]
    exact tickLoop_length hT k.toNat (k.toNat + 1) s.niceMin hkQ le_rfl
  have hc1 : (⌈mx / T⌉ : ℚ) < mx / T + 1 := Int.ceil_lt_add_one _
  have hc2 : mn / T - 1 < (⌊mn / T⌋ : ℚ) := Int.sub_one_lt_floor _
  have hTm1 : mx / T * T = mx := div_mul_cancel₀ _ (ne_of_gt hT)
  have hTm2 : mn / T * T = mn := div_mul_cancel₀ _ (ne_of_gt hT)
  have hkT : (k : ℚ) * T < (mx - mn) + 2 * T := by
    have hq : (k : ℚ) = (⌈mx / T⌉ : ℚ) - (⌊mn / T⌋ : ℚ) := by
      rw [hkdef]
      push_cast
      ring
    rw [hq]
    nlinarith [hc1, hc2, hT, hTm1, hTm2]
  have hrange : mx - mn ≤ s.vrange := by
    rw [hv]
    exact le_niceNumVal_false (by linarith)
  have htb := (niceNumVal_true_bounds (div_pos hvpos hn1)).1
  have htb1 : 2 * (s.vrange / ((n : ℚ) - 1)) < 3 * T := by
    rw [ht]
    exact htb
  have hdm : s.vrange / ((n : ℚ) - 1) * ((n : ℚ) - 1) = s.vrange :=
    div_mul_cancel₀ _ (ne_of_gt hn1)
  have hvr : 2 * s.vrange < 3 * T * ((n : ℚ) - 1) := by
    nlinarith [htb1, hn1, hdm]
  have hkT2 : 2 * (k : ℚ) * T < (3 * ((n : ℚ) - 1) + 4) * T := by
    nlinarith [hkT, hrange, hvr, hT]
  have hkQlt : 2 * (k : ℚ) < 3 * ((n : ℚ) - 1) + 4 :=
    lt_of_mul_lt_mul_right hkT2 (le_of_lt hT)
  have hki : 2 * k ≤ 3 * n := by
    have hq : (2 * k : ℚ) < 3 * (n : ℚ) + 1 := by push_cast; linarith
    have hz : (2 * k : ℤ) < 3 * n + 1 := by exact_mod_cast hq
    omega
  refine ⟨generateTicksList s, ?_, ?_⟩
  · unfold generateTicks
    rw [hcalc]
    rfl
  · rw [hlen]
    have hcast : (k.toNat : ℤ) = k := Int.toNat_of_nonneg hk0
    push_cast
    omega

/-- C1 counterexample: with min = -1/2, max = 9/2 and max_tick_count = 3
the pipeline picks span 5 and step 2, and the generated ticks are
-2, 0, 2, 4, 6 : five ticks, exceeding max_tick_count + 1 = 4. -/
theorem C1_tick_count_counterexample :
    generateTicks (-1/2) (9/2) 3 = .ok [-2, 0, 2, 4, 6] ∧
      ¬ (([-2, 0, 2, 4, 6] : List ℚ).length ≤ 3 + 1) := by
  constructor
  · with_unfolding_all decide
  · decide

/-- C1 (amended): for every parameter set with min_value < max_value and
max_tick_count at least 2, generate_ticks succeeds and the number L of
ticks satisfies 2 * L <= 3 * max_tick_count + 2; the bound
max_tick_count + 1 claimed by the spec can be exceeded (see the
counterexample), but the count never exceeds this 3/2-factor bound,
which is tight at the counterexample. -/
theorem C1_tick_count_bound_amended (mn mx : ℚ) (n : ℤ)
    (h : mn < mx) (hn : 2 ≤ n) :
    ∃ l : List ℚ, generateTicks mn mx n = .ok l ∧
      2 * (l.length : ℤ) ≤ 3 * n + 2 :=
  generateTicks_length mn mx n h hn

/-- C1 witness: the amended bound instantiated at min 0, max 1,
max_tick_count 2. -/
theorem C1_tick_count_bound_witness :
    ∃ l : List ℚ, generateTicks 0 1 2 = .ok l ∧
      2 * (l.length : ℤ) ≤ 3 * 2 + 2 :=
  C1_tick_count_bound_amended 0 1 2 (by norm_num) (by norm_num)

/-- C3 counterexample: the code raises the same (and only) math-domain
error both when max < min and when max = min; there is no separate
InvalidRangeError distinguishing the reversed range from the zero
range, contrary to the claim. -/
theorem C3_error_kinds_counterexample :
    scalerInit 1 0 5 = .error .mathDomainError ∧
      scalerInit 0 0 5 = .error .mathDomainError := by
  constructor
  · with_unfolding_all decide
  · with_unfolding_all decide

/-- C3 (amended): with max_tick_count at least 2, construction fails
with the single math-domain ValueError whenever max_value <= min_value
(the code performs no explicit validation; both the reversed and the
zero-width range hit the same log-domain error), and succeeds whenever
min_value < max_value. -/
theorem C3_init_errors_amended (mn mx : ℚ) (n : ℤ) (hn : 2 ≤ n) :
    (mx ≤ mn → scalerInit mn mx n = .error .mathDomainError) ∧
    (mn < mx → ∃ s, scalerInit mn mx n = .ok s) := by
  constructor
  · intro hle
    unfold scalerInit calculate niceNum
    rw [if_pos (by linarith : mx - mn ≤ 0)]
    rfl
  · intro hlt
    obtain ⟨s, hs, -⟩ := calculate_spec mn mx n hlt hn
    exact ⟨s, hs⟩

/-- C3 witness: the amended statement instantiated at a zero-width
range (0, 0) and at a proper range (0, 1), both with 5 ticks. -/
theorem C3_init_errors_witness :
    scalerInit 0 0 5 = .error .mathDomainError ∧
      ∃ s, scalerInit 0 1 5 = .ok s :=
  ⟨(C3_init_errors_amended 0 0 5 (by norm_num)).1 (le_refl 0),
   (C3_init_errors_amended 0 1 5 (by norm_num)).2 (by norm_num)⟩

/-- C4 counterexample: for min 0, max 4.5, max_tick_count 4 the code
computes step 2 (not 1), scaled maximum 6 (not 5), and ticks
0, 2, 4, 6 (not 0, 1, 2, 3, 4, 5): the fraction 5/3 is at least 3/2,
so rounding picks 2. -/
theorem C4_example_counterexample :
    calculate 0 (9/2) 4 =
      .ok { min_point := 0, max_point := 9/2, max_n_ticks := 4,
            vrange := 5, tickSpacing := 2, niceMin := 0, niceMax := 6 } ∧
    generateTicks 0 (9/2) 4 = .ok [0, 2, 4, 6] ∧
    (2 : ℚ) ≠ 1 ∧ ([0, 2, 4, 6] : List ℚ) ≠ [0, 1, 2, 3, 4, 5] := by
  refine ⟨?_, ?_, by norm_num, by decide⟩
  · with_unfolding_all decide
  · with_unfolding_all decide

/-- C4 (amended): for min_value 0, max_value 4.5, max_tick_count 4 the
recompute pipeline yields step = 2, scaled_min = 0, scaled_max = 6, and
generate_ticks produces exactly the sequence 0, 2, 4, 6. -/
theorem C4_example_amended :
    calculate 0 (9/2) 4 =
      .ok { min_point := 0, max_point := 9/2, max_n_ticks := 4,
            vrange := 5, tickSpacing := 2, niceMin := 0, niceMax := 6 } ∧
    generateTicks 0 (9/2) 4 = .ok [0, 2, 4, 6] := by
  constructor
  · with_unfolding_all decide
  · with_unfolding_all decide

/-- C5 counterexample: at range_value 3 in rounding mode the code
returns 5, yet the candidate 2 * 10 ^ 0 = 2 from the claimed candidate
set (the exponent is floor (log10 3) = 0) is strictly closer to 3, so
the result does not minimize the distance. -/
theorem C5_round_not_minimal_counterexample :
    niceNum 3 true = .ok 5 ∧
      Int.log 10 (3 : ℚ) = 0 ∧
      |(5 : ℚ) - 3| > |2 * (10 : ℚ) ^ (0 : ℤ) - 3| := by
  refine ⟨by with_unfolding_all decide, ?_, by norm_num⟩
  rw [← intLog10_eq]
  with_unfolding_all decide

/-- C5 (amended): for every positive range_value, nice_number returns a
value whose normalized digit (result divided by 10 to the floor of its
own log10) is one of 1, 2, 5, 10; in ceiling mode the result is at
least range_value; in rounding mode the result is only approximately
closest: it lies within a factor of (2/3, 5/3] of range_value (exact
distance minimization fails, see the counterexample). -/
theorem C5_nice_number_amended (x : ℚ) (hx : 0 < x) :
    (∃ y, niceNum x false = .ok y ∧
      (y / (10 : ℚ) ^ (Int.log 10 y) = 1 ∨
       y / (10 : ℚ) ^ (Int.log 10 y) = 2 ∨
       y / (10 : ℚ) ^ (Int.log 10 y) = 5 ∨
       y / (10 : ℚ) ^ (Int.log 10 y) = 10) ∧ x ≤ y) ∧
    (∃ y, niceNum x true = .ok y ∧
      (y / (10 : ℚ) ^ (Int.log 10 y) = 1 ∨
       y / (10 : ℚ) ^ (Int.log 10 y) = 2 ∨
       y / (10 : ℚ) ^ (Int.log 10 y) = 5 ∨
       y / (10 : ℚ) ^ (Int.log 10 y) = 10) ∧
      2 * x < 3 * y ∧ 3 * y ≤ 5 * x) := by
  have hnx : ¬ (x ≤ 0) := by linarith
  constructor
  · exact ⟨niceNumVal x false, by simp [niceNum, hnx],
      niceNumVal_normalized x false hx, le_niceNumVal_false hx⟩
  · exact ⟨niceNumVal x true, by simp [niceNum, hnx],
      niceNumVal_normalized x true hx,
      (niceNumVal_true_bounds hx).1, (niceNumVal_true_bounds hx).2⟩

/-- C5 witness: the amended statement instantiated at range_value 3. -/
theorem C5_nice_number_witness :
    (∃ y, niceNum 3 false = .ok y ∧
      (y / (10 : ℚ) ^ (Int.log 10 y) = 1 ∨
       y / (10 : ℚ) ^ (Int.log 10 y) = 2 ∨
       y / (10 : ℚ) ^ (Int.log 10 y) = 5 ∨
       y / (10 : ℚ) ^ (Int.log 10 y) = 10) ∧ (3 : ℚ) ≤ y) ∧
    (∃ y, niceNum 3 true = .ok y ∧
      (y / (10 : ℚ) ^ (Int.log 10 y) = 1 ∨
       y / (10 : ℚ) ^ (Int.log 10 y) = 2 ∨
       y / (10 : ℚ) ^ (Int.log 10 y) = 5 ∨
       y / (10 : ℚ) ^ (Int.log 10 y) = 10) ∧
      2 * 3 < 3 * y ∧ 3 * y ≤ 5 * 3) :=
  C5_nice_number_amended 3 (by norm_num)

/-- C2: a capacity-5 buffer, after the values 1..20 are inserted in
order, yields exactly 16, 17, 18, 19, 20 from its iteration generator
(in insertion order; the generator reads a local index copy, so the
embedded `iterate` is a pure function of the state), while the running
extrema report (1, 20): the all-time extent, not the window extent. -/
theorem C2_buffer_window_and_extent :
    (putList (PlotBuffer.init (some 5))
        [1, 2, 3, 4, 5, 6, 7, 8, 9, 10, 11, 12, 13, 14, 15, 16, 17, 18,
         19, 20]).iterate = [16, 17, 18, 19, 20] ∧
    (putList (PlotBuffer.init (some 5))
        [1, 2, 3, 4, 5, 6, 7, 8, 9, 10, 11, 12, 13, 14, 15, 16, 17, 18,
         19, 20]).min_value = some 1 ∧
    (putList (PlotBuffer.init (some 5))
        [1, 2, 3, 4, 5, 6, 7, 8, 9, 10, 11, 12, 13, 14, 15, 16, 17, 18,
         19, 20]).max_value = some 20 := by
  refine ⟨?_, ?_, ?_⟩ <;> with_unfolding_all decide

/-- C7 counterexample: `set_data` with an X sequence of length 3 and a
single Y sequence of length 2 (against one trace) raises nothing and
binds both sources; no ShapeMismatchError (or any validation) exists in
the code. -/
theorem C7_set_data_counterexample :
    Plot.set_data
      { min_x := 0, max_x := 1, min_y := 0, max_y := 1,
        xdata := .none,
        traces := [{ color := "yellow", lines := false, markers := true,
                     line_width := 2, marker_size := 3,
                     the_data := .none }] }
      (.staticSeq [1, 2, 3]) [.staticSeq [4, 5]] =
      { min_x := 0, max_x := 1, min_y := 0, max_y := 1,
        xdata := .staticSeq [1, 2, 3],
        traces := [{ color := "yellow", lines := false, markers := true,
                     line_width := 2, marker_size := 3,
                     the_data := .staticSeq [4, 5] }] } ∧
    ([1, 2, 3] : List ℚ).length ≠ ([4, 5] : List ℚ).length := by
  constructor
  · with_unfolding_all decide
  · decide

/-- Zip assignment characterized: the traces end up holding the first
`min (len traces, len sources)` sources, with any surplus traces
keeping their previous data. -/
theorem setTraceData_map :
    ∀ (ts : List PlotTrace) (ss : List DataSource),
      (Plot.setTraceData ts ss).map (fun t => t.the_data) =
        ss.take ts.length ++
          (ts.map (fun t => t.the_data)).drop ss.length
  | ts, [] => by simp [Plot.setTraceData]
  | [], s :: ss => by simp [Plot.setTraceData]
  | t :: ts, s :: ss => by
      simp [Plot.setTraceData, setTraceData_map ts ss]

/-- C7 (amended): static-mode `set_data` performs no length validation
and cannot fail; it always binds the X source and pairs Y sources with
traces by position (zip semantics: surplus sources dropped, surplus
traces keep their old data), whatever the lengths are. -/
theorem C7_set_data_amended (p : Plot) (x : DataSource)
    (ys : List DataSource) :
    (Plot.set_data p x ys).xdata = x ∧
    (Plot.set_data p x ys).traces.map (fun t => t.the_data) =
      ys.take p.traces.length ++
        (p.traces.map (fun t => t.the_data)).drop ys.length :=
  ⟨rfl, setTraceData_map p.traces ys⟩

/-- C9: the `color` argument of the `PlotTrace` constructor is ignored:
with the class counter at 0, requesting purple still yields the palette
color yellow. This contradicts the constructor docstring for the
`color` parameter and the comment on `TRACE_COLORS`, which says the
palette is used only when trace colors are not explicitly given. -/
theorem C9_color_argument_ignored :
    (initTrace 0 .none (some "purple") false true 2 3).1.color =
        "yellow" ∧
      "yellow" ≠ "purple" := by
  constructor
  · rfl
  · decide

/-- Setting the element just past a prefix rewrites the head of the
suffix. -/
theorem set_append_length (l1 l2 : List ℚ) (v : ℚ) :
    (l1 ++ l2).set l1.length v = l1 ++ l2.set 0 v := by
  induction l1 with
  | nil => simp
  | cons a l1 ih => simp [List.set, ih]

/-- Appending one element to the fold view of Python `min`. -/
theorem pyMin_snoc (vs : List ℚ) (v : ℚ) :
    pyMin (vs ++ [v]) =
      some ((pyMin vs).elim v (fun m => min m v)) := by
  cases vs with
  | nil => simp [pyMin]
  | cons x xs => simp [pyMin, List.foldl_append]

/-- Appending one element to the fold view of Python `max`. -/
theorem pyMax_snoc (vs : List ℚ) (v : ℚ) :
    pyMax (vs ++ [v]) =
      some ((pyMax vs).elim v (fun m => max m v)) := by
  cases vs with
  | nil => simp [pyMax]
  | cons x xs => simp [pyMax, List.foldl_append]

/-- The running-maximum update of `put` extends the fold view of
Python `max` by one element. -/
theorem pyMax_update (vs : List ℚ) (v : ℚ) :
    (match pyMax vs with
     | Option.none => some v
     | some m => if v > m then some v else some m) = pyMax (vs ++ [v]) := by
  rw [pyMax_snoc]
  cases hp : pyMax vs with
  | none => rfl
  | some m =>
      simp only [Option.elim]
      rcases lt_or_le m v with h | h
      · rw [if_pos h, max_eq_right h.le]
      · rw [if_neg (not_lt.mpr h), max_eq_left h]

/-- The running-minimum update of `put` extends the fold view of
Python `min` by one element. -/
theorem pyMin_update (vs : List ℚ) (v : ℚ) :
    (match pyMin vs with
     | Option.none => some v
     | some m => if v < m then some v else some m) = pyMin (vs ++ [v]) := by
  rw [pyMin_snoc]
  cases hp : pyMin vs with
  | none => rfl
  | some m =>
      simp only [Option.elim]
      rcases lt_or_le v m with h | h
      · rw [if_pos h, min_eq_right h.le]
      · rw [if_neg (not_lt.mpr h), min_eq_left h]

/-- State of a buffer of positive capacity `n` after inserting at most
`n` values into a fresh buffer: the backing array is the inserted
values followed by the untouched zeros, the write cursor is the count,
the read cursor never moved, and the extrema are the fold extrema of
the inserted values. -/
theorem putList_state (n : ℤ) (hn : 0 < n) :
    ∀ vs : List ℚ, (vs.length : ℤ) ≤ n →
      putList (PlotBuffer.init (some n)) vs =
        { data := some (vs ++ List.replicate (n - vs.length).toNat 0),
          size := some n,
          index_put := (vs.length : ℤ) % n,
          index_get := 0,
          count := (vs.length : ℤ),
          max_val := pyMax vs, min_val := pyMin vs } := by
  intro vs
  induction vs using List.reverseRecOn with
  | nil =>
      intro _
      simp only [putList, List.foldl_nil, PlotBuffer.init, if_pos hn]
      simp [pyMax, pyMin]
  | append_singleton vs v ih =>
      intro hlen
      have hvs : (vs.length : ℤ) < n := by
        simp only [List.length_append, List.length_cons,
          List.length_nil] at hlen
        push_cast at hlen ⊢
        omega
      have hstate := ih (le_of_lt hvs)
      rw [putList, List.foldl_append, List.foldl_cons, List.foldl_nil]
      rw [show vs.foldl PlotBuffer.put (PlotBuffer.init (some n)) =
            putList (PlotBuffer.init (some n)) vs from rfl, hstate]
      have hmod : (vs.length : ℤ) % n = (vs.length : ℤ) :=
        Int.emod_eq_of_lt (by positivity) hvs
      have hpad : (n - (vs.length : ℤ)).toNat =
          ((n - (vs.length : ℤ)).toNat - 1) + 1 := by omega
      have hne : List.isEmpty
          (vs ++ List.replicate (n - (vs.length : ℤ)).toNat 0) = false := by
        rw [List.isEmpty_eq_false_iff_exists_mem]
        refine ⟨0, List.mem_append_right _ ?_⟩
        rw [hpad]
        exact List.mem_replicate.mpr ⟨by omega, rfl⟩
      have hset : List.set
            (vs ++ List.replicate (n - (vs.length : ℤ)).toNat 0)
            vs.length v =
          (vs ++ [v]) ++
            List.replicate (n - ((vs ++ [v]).length : ℤ)).toNat 0 := by
        rw [set_append_length, hpad, List.replicate_succ,
          List.set_cons_zero]
        simp only [List.append_assoc, List.singleton_append]
        congr 3
        simp only [List.length_append, List.length_cons, List.length_nil]
        push_cast
        omega
      unfold PlotBuffer.put
      simp only [hmod, hne, Bool.false_eq_true, if_false,
        Int.toNat_natCast, hset]
      rw [if_neg (by omega : ¬ ((vs.length : ℤ) ≥ n))]
      simp only [PlotBuffer.mk.injEq, true_and, and_true]
      refine ⟨?_, ?_, ?_, ?_⟩
      · simp only [List.length_append, List.length_cons, List.length_nil]
        push_cast
        ring_nf
      · simp only [List.length_append, List.length_cons, List.length_nil]
        push_cast
        ring_nf
      · exact pyMax_update vs v
      · exact pyMin_update vs v

/-- C8: for a fresh buffer of positive capacity `n` that holds fewer
live values than its capacity, `find_extremes` with `all_new = True`
returns the minimum and maximum of the entire backing array: the
inserted values followed by the never-written slots still holding the
initial value 0 — not the extrema of only the live elements. -/
theorem C8_find_extremes_backing_array (n : ℤ) (vs : List ℚ)
    (hn : 0 < n) (hne : vs ≠ []) (hlt : (vs.length : ℤ) < n) :
    ∃ mn mx,
      Plot.find_extremes (.buf (putList (PlotBuffer.init (some n)) vs))
          true = some (mn, mx) ∧
      pyMin (vs ++ List.replicate (n - vs.length).toNat 0) = some mn ∧
      pyMax (vs ++ List.replicate (n - vs.length).toNat 0) = some mx := by
  rw [putList_state n hn vs (le_of_lt hlt)]
  obtain ⟨x, xs, hvs⟩ : ∃ x xs, vs = x :: xs := by
    cases vs with
    | nil => exact absurd rfl hne
    | cons x xs => exact ⟨x, xs, rfl⟩
  subst hvs
  have htr : ((((x :: xs).length : ℤ)) != 0) = true := by
    simp only [bne_iff_ne, ne_eq, List.length_cons]
    push_cast
    omega
  refine ⟨List.foldl min x
            (xs ++ List.replicate (n - ((x :: xs).length : ℤ)).toNat 0),
          List.foldl max x
            (xs ++ List.replicate (n - ((x :: xs).length : ℤ)).toNat 0),
          ?_, ?_, ?_⟩
  · simp only [Plot.find_extremes, DataSource.truthy, htr, pyMin, pyMax,
      List.cons_append, if_true]
  · simp [pyMin, List.cons_append]
  · simp [pyMax, List.cons_append]

/-- C8 witness: capacity 5, live values 7 and 8: the reported extremes
are (0, 8) — the zero slots dominate the minimum, which over only the
live data would be 7. -/
theorem C8_find_extremes_backing_array_witness :
    (∃ mn mx,
      Plot.find_extremes
          (.buf (putList (PlotBuffer.init (some 5)) [7, 8])) true =
        some (mn, mx) ∧
      pyMin ([7, 8] ++ List.replicate ((5 : ℤ) - ([7, 8] : List ℚ).length).toNat 0) =
        some mn ∧
      pyMax ([7, 8] ++ List.replicate ((5 : ℤ) - ([7, 8] : List ℚ).length).toNat 0) =
        some mx) ∧
    Plot.find_extremes
        (.buf (putList (PlotBuffer.init (some 5)) [7, 8])) true =
      some (0, 8) ∧
    pyMin [7, 8] = some 7 := by
  refine ⟨C8_find_extremes_backing_array 5 [7, 8] (by norm_num)
    (by decide) (by decide), ?_, ?_⟩
  · with_unfolding_all decide
  · with_unfolding_all decide

/-- The strict update `if a < m then a else m` of the autoscale loop is
binary `min` (first argument kept on ties). -/
theorem strict_if_min (a m : ℚ) : (if a < m then a else m) = min m a := by
  rcases lt_or_le a m with h | h
  · rw [if_pos h, min_eq_right h.le]
  · rw [if_neg (not_lt.mpr h), min_eq_left h]

/-- The strict update `if a > m then a else m` of the autoscale loop is
binary `max` (first argument kept on ties). -/
theorem strict_if_max (a m : ℚ) : (if a > m then a else m) = max m a := by
  rcases lt_or_le m a with h | h
  · rw [if_pos h, max_eq_right h.le]
  · rw [if_neg (not_lt.mpr h), max_eq_left h]

/-- The Y-autoscale accumulation loop, started from live accumulators,
folds `min` over the per-trace minima and `max` over the per-trace
maxima, provided every trace reports an extent. -/
theorem yExtremesLoop_acc :
    ∀ (ts : List PlotTrace) (exts : List (ℚ × ℚ)) (accMn accMx : ℚ),
      ts.map (fun t => Plot.find_extremes t.the_data false) =
        exts.map some →
      Plot.yExtremesLoop ts (some accMn) (some accMx) =
        (some ((exts.map Prod.fst).foldl min accMn),
         some ((exts.map Prod.snd).foldl max accMx)) := by
  intro ts
  induction ts with
  | nil =>
      intro exts accMn accMx h
      cases exts with
      | nil => simp [Plot.yExtremesLoop]
      | cons e es => simp at h
  | cons t ts ih =>
      intro exts accMn accMx h
      cases exts with
      | nil => simp at h
      | cons e es =>
          obtain ⟨emn, emx⟩ := e
          simp only [List.map_cons, List.cons.injEq] at h
          obtain ⟨h1, h2⟩ := h
          simp only [Plot.yExtremesLoop, h1, ← apply_ite some,
            strict_if_min, strict_if_max]
          rw [ih es (min accMn emn) (max accMx emx) h2]
          simp [List.foldl_cons, List.map_cons]

/-- C6 (amended), in three parts. (1) When the X source is a buffer
with more than one live point, autoscale_x sets the X range to the
extremes of the buffer backing array (these equal the extremes of the
current X data when the buffer is full, but include the zero slots
otherwise: see the counterexample). (2) When the plot has traces and
more than one X point, autoscale_y sets the Y range to the union
(minimum of trace minima, maximum of trace maxima) over all traces,
each through its source native extent semantics in find_extremes.
(3) With one or zero X data points neither method changes any range. -/
theorem C6_autoscale_amended :
    (∀ (p : Plot) (b : PlotBuffer) (d : List ℚ) (mn mx : ℚ),
      p.xdata = .buf b → 1 < b.count → b.data = some d →
      pyMin d = some mn → pyMax d = some mx →
      Plot.autoscale_x p = { p with min_x := mn, max_x := mx }) ∧
    (∀ (p : Plot) (exts : List (ℚ × ℚ)) (L : ℤ) (mn mx : ℚ),
      p.traces ≠ [] → p.xdata.pyLen = some L → 1 < L →
      p.traces.map (fun t => Plot.find_extremes t.the_data false) =
        exts.map some →
      pyMin (exts.map Prod.fst) = some mn →
      pyMax (exts.map Prod.snd) = some mx →
      Plot.autoscale_y p = some { p with min_y := mn, max_y := mx }) ∧
    (∀ (p : Plot) (b : PlotBuffer), p.xdata = .buf b → b.count ≤ 1 →
      Plot.autoscale_x p = p ∧ Plot.autoscale_y p = some p) := by
  refine ⟨?_, ?_, ?_⟩
  · intro p b d mn mx hx hc hd hmn hmx
    have htr : ((b.count != 0) = true) := by
      simp only [bne_iff_ne, ne_eq]
      omega
    simp [Plot.autoscale_x, Plot.find_extremes, DataSource.truthy,
      DataSource.pyLen, hx, htr, hd, hmn, hmx, hc]
  · intro p exts L mn mx htne hlen hL hmap hmn hmx
    obtain ⟨t, ts, hts⟩ : ∃ t ts, p.traces = t :: ts := by
      cases hpt : p.traces with
      | nil => exact absurd hpt htne
      | cons t ts => exact ⟨t, ts, rfl⟩
    cases exts with
    | nil => rw [hts] at hmap; simp at hmap
    | cons e es =>
        obtain ⟨emn, emx⟩ := e
        rw [hts] at hmap
        simp only [List.map_cons, List.cons.injEq] at hmap
        obtain ⟨h1, h2⟩ := hmap
        simp only [List.map_cons] at hmn hmx
        have hloop := yExtremesLoop_acc ts es emn emx h2
        unfold Plot.autoscale_y
        rw [hts]
        simp only [List.isEmpty_cons, Bool.false_eq_true, if_false,
          hlen, if_pos hL]
        rw [show Plot.yExtremesLoop (t :: ts) Option.none Option.none =
              Plot.yExtremesLoop ts (some emn) (some emx) by
          simp [Plot.yExtremesLoop, h1]]
        rw [hloop, Option.some.inj hmn, Option.some.inj hmx]
  · intro p b hx hc
    constructor
    · unfold Plot.autoscale_x
      rw [hx]
      by_cases hc0 : b.count = 0
      · simp [DataSource.truthy, hc0]
      · simp only [DataSource.truthy, DataSource.pyLen]
        rw [if_pos (by simp [bne_iff_ne]; omega)]
        rw [if_neg (by omega : ¬ (1 < b.count))]
    · unfold Plot.autoscale_y
      by_cases hemp : p.traces.isEmpty
      · rw [if_pos hemp]
      · rw [if_neg hemp, hx]
        simp only [DataSource.pyLen]
        rw [if_neg (by omega : ¬ (1 < b.count))]

/-- C6 counterexample: an X buffer of capacity 5 with only the two
live points 7 and 8: autoscale_x sets the X range to (0, 8), taking the
minimum over the three never-written zero slots of the backing array,
not to (7, 8), the extent of the current X data only. -/
theorem C6_autoscale_x_counterexample :
    Plot.autoscale_x
      { min_x := 100, max_x := 200, min_y := 0, max_y := 1,
        xdata := .buf (putList (PlotBuffer.init (some 5)) [7, 8]),
        traces := [] } =
    { min_x := 0, max_x := 8, min_y := 0, max_y := 1,
      xdata := .buf (putList (PlotBuffer.init (some 5)) [7, 8]),
      traces := [] } ∧
    pyMin [7, 8] = some 7 ∧ (0 : ℚ) ≠ 7 := by
  refine ⟨?_, ?_, by norm_num⟩
  · with_unfolding_all decide
  · with_unfolding_all decide

/-- C6 witness: the spec scenario. X buffer holding 0,1,2,3,4 (full, so
backing extremes equal data extremes) and two Y traces whose buffers
have seen extents (-1, 1) and (0, 5): autoscale_x yields X range (0, 4)
and autoscale_y yields Y range (-1, 5). -/
theorem C6_autoscale_witness :
    Plot.autoscale_x
      { min_x := 50, max_x := 60, min_y := 70, max_y := 80,
        xdata := .buf (putList (PlotBuffer.init (some 5)) [0, 1, 2, 3, 4]),
        traces :=
          [{ color := "yellow", lines := false, markers := true,
             line_width := 2, marker_size := 3,
             the_data := .buf (putList (PlotBuffer.init (some 5)) [-1, 1]) },
           { color := "cyan", lines := false, markers := true,
             line_width := 2, marker_size := 3,
             the_data := .buf (putList (PlotBuffer.init (some 5)) [0, 5]) }] } =
    { min_x := 0, max_x := 4, min_y := 70, max_y := 80,
      xdata := .buf (putList (PlotBuffer.init (some 5)) [0, 1, 2, 3, 4]),
      traces :=
        [{ color := "yellow", lines := false, markers := true,
           line_width := 2, marker_size := 3,
           the_data := .buf (putList (PlotBuffer.init (some 5)) [-1, 1]) },
         { color := "cyan", lines := false, markers := true,
           line_width := 2, marker_size := 3,
           the_data := .buf (putList (PlotBuffer.init (some 5)) [0, 5]) }] } ∧
    Plot.autoscale_y
      { min_x := 50, max_x := 60, min_y := 70, max_y := 80,
        xdata := .buf (putList (PlotBuffer.init (some 5)) [0, 1, 2, 3, 4]),
        traces :=
          [{ color := "yellow", lines := false, markers := true,
             line_width := 2, marker_size := 3,
             the_data := .buf (putList (PlotBuffer.init (some 5)) [-1, 1]) },
           { color := "cyan", lines := false, markers := true,
             line_width := 2, marker_size := 3,
             the_data := .buf (putList (PlotBuffer.init (some 5)) [0, 5]) }] } =
    some
      { min_x := 50, max_x := 60, min_y := -1, max_y := 5,
        xdata := .buf (putList (PlotBuffer.init (some 5)) [0, 1, 2, 3, 4]),
        traces :=
          [{ color := "yellow", lines := false, markers := true,
             line_width := 2, marker_size := 3,
             the_data := .buf (putList (PlotBuffer.init (some 5)) [-1, 1]) },
           { color := "cyan", lines := false, markers := true,
             line_width := 2, marker_size := 3,
             the_data := .buf (putList (PlotBuffer.init (some 5)) [0, 5]) }] } := by
  constructor
  · exact C6_autoscale_amended.1 _
      (putList (PlotBuffer.init (some 5)) [0, 1, 2, 3, 4])
      [0, 1, 2, 3, 4] 0 4
      rfl
      (by with_unfolding_all decide)
      (by with_unfolding_all decide)
      (by with_unfolding_all decide)
      (by with_unfolding_all decide)
  · exact C6_autoscale_amended.2.1 _
      [(-1, 1), (0, 5)] 5 (-1) 5
      (by decide)
      (by with_unfolding_all decide)
      (by norm_num)
      (by with_unfolding_all decide)
      (by with_unfolding_all decide)
      (by with_unfolding_all decide)

theorem toPBuf_init (size : Option ℤ) :
    toPBuf (PlotBuffer.init size) = PBuf.init size := by
  cases size <;> rfl

theorem toPBuf_put (b : PlotBuffer) (v : ℚ) :
    toPBuf (b.put v) = PBuf.put (toPBuf b) v := by
  obtain ⟨data, size, ip, ig, c, mx, mn⟩ := b
  cases data <;> cases size <;> cases mx <;> cases mn <;>
    simp only [PlotBuffer.put, PBuf.put, toPBuf] <;>
    first
      | rfl
      | (split_ifs <;> rfl)

theorem toPBuf_get (b : PlotBuffer) :
    b.get.1 = (PBuf.get (toPBuf b)).1 ∧
      toPBuf b.get.2 = (PBuf.get (toPBuf b)).2 := by
  obtain ⟨data, size, ip, ig, c, mx, mn⟩ := b
  cases data <;> cases size <;>
    simp only [PlotBuffer.get, PBuf.get, toPBuf] <;>
    first
      | exact ⟨trivial, trivial⟩
      | exact ⟨rfl, rfl⟩
      | (split_ifs <;> exact ⟨rfl, rfl⟩)

theorem iterGo_eq_genGo (d : List ℚ) (s : ℤ) :
    ∀ (n : ℕ) (idx : ℤ),
      PlotBuffer.iterGo d s n idx = PBuf.genGo d s n idx
  | 0, _ => rfl
  | n + 1, idx => by
      rw [PlotBuffer.iterGo, PBuf.genGo, iterGo_eq_genGo d s n]

theorem iterate_eq_generate_points (b : PlotBuffer) :
    b.iterate = PBuf.generate_points (toPBuf b) := by
  obtain ⟨data, size, ip, ig, c, mx, mn⟩ := b
  cases data <;> cases size <;>
    simp only [PlotBuffer.iterate, PBuf.generate_points, toPBuf] <;>
    first
      | rfl
      | (split_ifs <;> first | rfl | apply iterGo_eq_genGo)

theorem runOps_commute (ops : List BufOp) :
    ∀ b : PlotBuffer,
      toPBuf (runOps b ops).1 = (PBuf.runOps (toPBuf b) ops).1 ∧
      (runOps b ops).2 = (PBuf.runOps (toPBuf b) ops).2 := by
  induction ops with
  | nil => exact fun b => ⟨rfl, rfl⟩
  | cons op ops ih =>
      intro b
      cases op with
      | put v =>
          simp only [runOps, PBuf.runOps]
          rw [← toPBuf_put]
          exact ih (b.put v)
      | get =>
          have hg := toPBuf_get b
          simp only [runOps, PBuf.runOps]
          refine ⟨?_, ?_⟩
          · rw [← hg.2]
            exact (ih b.get.2).1
          · rw [← hg.1, ← hg.2, (ih b.get.2).2]

/-- C10: the `PlotBuffer` class in `plot_buffer.py` and the
`PlotBuffer` class in `plot_trace.py` are behaviorally equivalent: for
every initial size and every sequence of put and get operations they
reach field-for-field identical states (backing data, size, read and
write cursors, live count, running extrema), the get operations return
identical outputs, and `generate_points` of the one yields the same
element sequence as `__iter__` of the other. -/
theorem C10_buffer_classes_equivalent (size : Option ℤ)
    (ops : List BufOp) :
    toPBuf (runOps (PlotBuffer.init size) ops).1 =
      (PBuf.runOps (PBuf.init size) ops).1 ∧
    (runOps (PlotBuffer.init size) ops).2 =
      (PBuf.runOps (PBuf.init size) ops).2 ∧
    (runOps (PlotBuffer.init size) ops).1.iterate =
      PBuf.generate_points ((PBuf.runOps (PBuf.init size) ops).1) := by
  have h := runOps_commute ops (PlotBuffer.init size)
  rw [toPBuf_init] at h
  refine ⟨h.1, h.2, ?_⟩
  rw [iterate_eq_generate_points, h.1]
